import Mathlib

/-!
redirectname: the certificate pre-check (`precheck.go`).

A shallow embedding of `init`, `getNSRecords` and `PreCheck` from
`precheck.go`, together with the handful of Go standard-library functions on
`net.IP` that they call (`To4`, `Equal`, `IsGlobalUnicast`, ...).

Conventions.

* A Go `string` is a Lean `String`; label splitting works on its characters.
  Splitting on the ASCII characters `.` and `,` is the same on bytes and on
  code points.
* `net.IP` is a byte slice: `IP := List Nat`.  A `nil` result of a function
  that returns `net.IP` is `none`.
* The network is a record `Net` of answer functions (system resolver address
  lookup, NS lookup, direct DNS exchange) plus the two pure library functions
  whose bodies play no role (`net.ParseIP`, `dns.Fqdn`).  The DNS state is
  fixed while one `PreCheck` runs.  Every call to an answer function is
  recorded as an `Event`, in order, so that "performs no lookup" is a statement
  about the returned list of events.
* A Go `error` result is `Option Error`; `none` is `nil`.
* Diagnostic logging (`log.Println`) is left out.
* In `PreCheck` the outcome of a direct query is what `Net.Exchange` says, the
  expiry of the deadline being one way to fail.  `PreCheckTimed` runs the same
  code with the time of every call and the 5 second deadline of the context
  made explicit.
-/

namespace Redirectname

/-! ## Go standard library: `net.IP` -/

/-- A `net.IP` value: a slice of bytes. -/
abbrev IP := List Nat

/-- The constant `net.IPv4len`. -/
def IPv4len : Nat := 4

/-- The constant `net.IPv6len`. -/
def IPv6len : Nat := 16

/-- The 12-byte prefix `v4InV6Prefix` of an IPv4-mapped IPv6 address. -/
def v4InV6Prefix : List Nat := [0, 0, 0, 0, 0, 0, 0, 0, 0, 0, 0xff, 0xff]

/-- The function `net.IPv4(a, b, c, d)`: the 16-byte form of an IPv4 address. -/
def IPv4 (a b c d : Nat) : IP := v4InV6Prefix ++ [a, b, c, d]

/-- The address `net.IPv4bcast`, the limited broadcast address. -/
def IPv4bcast : IP := IPv4 255 255 255 255

/-- The address `net.IPv4zero`, all zeros. -/
def IPv4zero : IP := IPv4 0 0 0 0

/-- The address `net.IPv6unspecified`. -/
def IPv6unspecified : IP := [0, 0, 0, 0, 0, 0, 0, 0, 0, 0, 0, 0, 0, 0, 0, 0]

/-- The address `net.IPv6loopback`. -/
def IPv6loopback : IP := [0, 0, 0, 0, 0, 0, 0, 0, 0, 0, 0, 0, 0, 0, 0, 1]

/-- The helper `isZeros` of package `net`: every byte is zero. -/
def isZeros (p : List Nat) : Bool := p.all (fun b => b == 0)

/-- The method `net.IP.To4`: the 4-byte form of an IPv4 address, `none` (Go `nil`)
when the value is not an IPv4 address. -/
def To4 (ip : IP) : Option IP :=
  if ip.length = IPv4len then some ip
  else if ip.length = IPv6len ∧ isZeros (ip.take 10) = true ∧
      ip.getD 10 0 = 0xff ∧ ip.getD 11 0 = 0xff then some ((ip.drop 12).take 4)
  else none

/-- The method `net.IP.Equal`: equality of addresses, an IPv4 address and its
IPv4-mapped IPv6 form being equal. -/
def Equal (ip x : IP) : Bool :=
  if ip.length = x.length then ip == x
  else if ip.length = IPv4len ∧ x.length = IPv6len then
    (x.take 12 == v4InV6Prefix) && (ip == x.drop 12)
  else if ip.length = IPv6len ∧ x.length = IPv4len then
    (ip.take 12 == v4InV6Prefix) && (ip.drop 12 == x)
  else false

/-- The method `net.IP.IsUnspecified`. -/
def IsUnspecified (ip : IP) : Bool := Equal ip IPv4zero || Equal ip IPv6unspecified

/-- The method `net.IP.IsLoopback`. -/
def IsLoopback (ip : IP) : Bool :=
  match To4 ip with
  | some ip4 => ip4.getD 0 0 == 127
  | none => Equal ip IPv6loopback

/-- The method `net.IP.IsMulticast`; `b & 0xf0 == 0xe0` is written with division. -/
def IsMulticast (ip : IP) : Bool :=
  match To4 ip with
  | some ip4 => (ip4.getD 0 0 % 256) / 16 == 14
  | none => ip.length == IPv6len && ip.getD 0 0 == 0xff

/-- The method `net.IP.IsLinkLocalUnicast`; `b & 0xc0 == 0x80` is written with
division. -/
def IsLinkLocalUnicast (ip : IP) : Bool :=
  match To4 ip with
  | some ip4 => ip4.getD 0 0 == 169 && ip4.getD 1 0 == 254
  | none => ip.length == IPv6len && ip.getD 0 0 == 0xfe && (ip.getD 1 0 % 256) / 64 == 2

/-- The method `net.IP.IsPrivate`: the RFC 1918 ranges 10/8, 172.16/12 and
192.168/16 (and RFC 4193 for IPv6); `b & 0xf0 == 16` is written with division. -/
def IsPrivate (ip : IP) : Bool :=
  match To4 ip with
  | some ip4 => ip4.getD 0 0 == 10 ||
      (ip4.getD 0 0 == 172 && (ip4.getD 1 0 % 256) / 16 == 1) ||
      (ip4.getD 0 0 == 192 && ip4.getD 1 0 == 168)
  | none => ip.length == IPv6len && (ip.getD 0 0 % 256) / 2 == 126

/-- The method `net.IP.IsGlobalUnicast`.  As its documentation says, it "returns
true even if ip is in IPv4 private address space". -/
def IsGlobalUnicast (ip : IP) : Bool :=
  (ip.length == IPv4len || ip.length == IPv6len) &&
    !Equal ip IPv4bcast &&
    !IsUnspecified ip &&
    !IsLoopback ip &&
    !IsMulticast ip &&
    !IsLinkLocalUnicast ip

/-! ## Go standard library: `strings` -/

/-- The function `strings.Split(s, sep)` for a one-character separator, on the
characters of `s`.  The result is never empty: `Split("", sep)` is `[""]`. -/
def splitChars (sep : Char) : List Char → List (List Char)
  | [] => [[]]
  | c :: cs =>
    if c = sep then [] :: splitChars sep cs
    else
      match splitChars sep cs with
      | [] => [[c]]
      | l :: ls => (c :: l) :: ls

/-- The function `strings.Split(s, sep)` for a one-character separator. -/
def Split (s : String) (sep : Char) : List String :=
  (splitChars sep s.data).map String.mk

/-- The function `strings.Join(elems, sep)`. -/
def Join (elems : List String) (sep : String) : String :=
  match elems with
  | [] => ""
  | [e] => e
  | e :: rest => e ++ sep ++ Join rest sep

/-- The function `strings.TrimSuffix(s, ".")`. -/
def TrimSuffixDot (s : String) : String :=
  if s.data.getLast? = some '.' then String.mk s.data.dropLast else s

/-- The predicate `unicode.IsSpace` on the Latin-1 range and the Unicode space
separators, as used by `strings.TrimSpace`. -/
def isSpace (c : Char) : Bool :=
  c = '\t' || c = '\n' || c.toNat = 0x0b || c.toNat = 0x0c || c = '\r' || c = ' ' ||
  c.toNat = 0x85 || c.toNat = 0xa0 || c.toNat = 0x1680 ||
  (0x2000 ≤ c.toNat && c.toNat ≤ 0x200a) ||
  c.toNat = 0x2028 || c.toNat = 0x2029 || c.toNat = 0x202f || c.toNat = 0x205f ||
  c.toNat = 0x3000

/-- The function `strings.TrimSpace`. -/
def TrimSpace (s : String) : String :=
  String.mk ((s.data.dropWhile isSpace).reverse.dropWhile isSpace).reverse

/-! ## The network, as seen by `precheck.go` -/

/-- The sentinel errors declared at the top of `precheck.go`. -/
inductive Error
  | ErrNotUs
  | ErrTooManyDots
  | ErrNoNS
  | ErrIP
  deriving DecidableEq, Repr

/-- A `net.NS` record: the host name of a nameserver. -/
structure NS where
  Host : String
  deriving DecidableEq, Repr

/-- A resource record of a DNS answer section, by the cases of the type switch
in `PreCheck`: `*dns.A`, `*dns.CNAME`, anything else. -/
inductive RR
  | A (a : IP)
  | CNAME (Target : String)
  | other
  deriving DecidableEq, Repr

/-- One call that leaves the process: a system-resolver address lookup
(`net.LookupIP`), a system-resolver NS lookup (`net.LookupNS`), or a direct query
to a nameserver (`dns.Client.ExchangeContext`, with the server address and the
question name). -/
inductive Event
  | LookupIP (host : String)
  | LookupNS (name : String)
  | Exchange (addr : String) (qname : String)
  deriving DecidableEq, Repr

/-- The environment of one `PreCheck` call.  `none` stands for a non-nil `err`
(for `Exchange` this includes the expiry of the 5 second deadline of the
context); `ParseIP` returns `none` for Go `nil`. -/
structure Net where
  ParseIP : String → Option IP
  LookupIP : String → Option (List IP)
  LookupNS : String → Option (List NS)
  Fqdn : String → String
  Exchange : String → String → Option (List RR)

/-! ## `init`: building `publicIPs` -/

/-- A `net.Addr` as returned by `iface.Addrs()`, by the cases of the type switch
in `init`; the `IP` field of a `*net.IPNet` or `*net.IPAddr` may be `nil`. -/
inductive Addr
  | IPNet (ip : Option IP)
  | IPAddr (ip : Option IP)
  | other
  deriving DecidableEq, Repr

/-- First part of `init`: the addresses of the `PUBLIC_IPS` environment
variable. -/
def initEnv (N : Net) (envIPs : String) : List IP :=
  if envIPs ≠ "" then
    (Split envIPs ',').filterMap (fun ipStr => N.ParseIP (TrimSpace ipStr))
  else []

/-- Body of the inner loop of the second part of `init`: the address that one
interface address contributes to `publicIPs`, if any. -/
def ifaceAddr (addr : Addr) : Option IP :=
  let ip : Option IP :=
    match addr with
    | Addr.IPNet ip => ip
    | Addr.IPAddr ip => ip
    | Addr.other => none
  -- skip IPv6 and non-public addresses
  let ip := ip.bind To4
  match ip with
  | some ip => if IsGlobalUnicast ip then some ip else none
  | none => none

/-- Second part of `init`: the addresses of the local network interfaces;
`ifaces` lists, for every interface, the result of `iface.Addrs()`. -/
def initIfaces (ifaces : List (List Addr)) : List IP :=
  ifaces.flatten.filterMap ifaceAddr

/-- The function `init`: the value of `publicIPs` after start-up. -/
def init (N : Net) (envIPs : String) (ifaces : List (List Addr)) : List IP :=
  initEnv N envIPs ++ initIfaces ifaces

/-! ## `getNSRecords` -/

/-- The loop `for i := range labels` of `getNSRecords`, over the indices still
to visit. -/
def nsLoop (N : Net) (labels : List String) :
    List Nat → Except Error (List NS) × List Event
  | [] => (Except.error Error.ErrNoNS, [])
  | i :: rest =>
    let candidate := Join (labels.drop i) "."
    match N.LookupNS candidate with
    | some nsRecords =>
      -- If we found NS for this level, return them.
      if nsRecords.length > 0 then (Except.ok nsRecords, [Event.LookupNS candidate])
      else ((nsLoop N labels rest).1, Event.LookupNS candidate :: (nsLoop N labels rest).2)
    | none => ((nsLoop N labels rest).1, Event.LookupNS candidate :: (nsLoop N labels rest).2)

/-- The function `getNSRecords`: the result and the lookups made. -/
def getNSRecords (N : Net) (host : String) : Except Error (List NS) × List Event :=
  let labels := Split host '.'
  -- sanity check
  if labels.length > 10 then (Except.error Error.ErrTooManyDots, [])
  else nsLoop N labels (List.range labels.length)

/-- The candidate zone name of round `i` of the loop of `getNSRecords`:
`strings.Join(labels[i:], ".")`. -/
def candidate (host : String) (i : Nat) : String :=
  Join ((Split host '.').drop i) "."

/-- The test `err == nil && len(nsRecords) > 0` of `getNSRecords` on the answer of
`net.LookupNS` for a name. -/
def hasNS (N : Net) (name : String) : Bool :=
  match N.LookupNS name with
  | some nsRecords => decide (nsRecords.length > 0)
  | none => false

/-! ## `PreCheck` -/

/-- The loop `for _, pubIP := range publicIPs { if pubIP.Equal(ip) ... }`. -/
def isPublic (publicIPs : List IP) (ip : IP) : Bool :=
  publicIPs.any (fun pubIP => Equal pubIP ip)

/-- The loop over the addresses returned by `net.LookupIP`: some address has an
IPv4 form that is in `publicIPs`. -/
def anyPublic (publicIPs : List IP) (ips : List IP) : Bool :=
  ips.any (fun ip =>
    match To4 ip with
    | some ip4 => isPublic publicIPs ip4
    | none => false)

/-- The fast path of `PreCheck`: the system resolver answers and one of its
addresses is ours. -/
def fastPath (N : Net) (publicIPs : List IP) (hostname : String) : Bool :=
  match N.LookupIP hostname with
  | none => false
  | some ips => anyPublic publicIPs ips

/-- The loop `for _, ans := range resp.Answer`: whether it returned `nil`, and
the lookups made. -/
def answerLoop (N : Net) (publicIPs : List IP) : List RR → Bool × List Event
  | [] => (false, [])
  | RR.A a :: rest =>
    if isPublic publicIPs a then (true, [])
    else answerLoop N publicIPs rest
  | RR.CNAME target :: rest =>
    -- Resolve the CNAME target using system resolver.
    match N.LookupIP target with
    | none =>
      ((answerLoop N publicIPs rest).1, Event.LookupIP target :: (answerLoop N publicIPs rest).2)
    | some ips =>
      if anyPublic publicIPs ips then (true, [Event.LookupIP target])
      else
        ((answerLoop N publicIPs rest).1,
          Event.LookupIP target :: (answerLoop N publicIPs rest).2)
  | RR.other :: rest => answerLoop N publicIPs rest

/-- The address `strings.TrimSuffix(ns.Host, ".") + ":53"` of a nameserver. -/
def nsAddr (ns : NS) : String := TrimSuffixDot ns.Host ++ ":53"

/-- The loop `for _, ns := range nsRecords`: whether it returned `nil`, and the
queries and lookups made. -/
def queryLoop (N : Net) (publicIPs : List IP) (hostname : String) :
    List NS → Bool × List Event
  | [] => (false, [])
  | ns :: rest =>
    match N.Exchange (nsAddr ns) (N.Fqdn hostname) with
    | none =>
      ((queryLoop N publicIPs hostname rest).1,
        Event.Exchange (nsAddr ns) (N.Fqdn hostname) :: (queryLoop N publicIPs hostname rest).2)
    | some answer =>
      if (answerLoop N publicIPs answer).1 then
        (true, Event.Exchange (nsAddr ns) (N.Fqdn hostname) :: (answerLoop N publicIPs answer).2)
      else
        ((queryLoop N publicIPs hostname rest).1,
          Event.Exchange (nsAddr ns) (N.Fqdn hostname) ::
            ((answerLoop N publicIPs answer).2 ++ (queryLoop N publicIPs hostname rest).2))

/-- The part of `PreCheck` after the label `SlowPath`. -/
def slowPath (N : Net) (publicIPs : List IP) (hostname : String) :
    Option Error × List Event :=
  match getNSRecords N hostname with
  | (Except.error err, t) => (some err, t)
  | (Except.ok nsRecords, t) =>
    if (queryLoop N publicIPs hostname nsRecords).1 then
      (none, t ++ (queryLoop N publicIPs hostname nsRecords).2)
    else
      (some Error.ErrNotUs, t ++ (queryLoop N publicIPs hostname nsRecords).2)

/-- The function `PreCheck`: the returned error (`none` for `nil`) and the calls
made to the resolver and to nameservers, in order. -/
def PreCheck (N : Net) (publicIPs : List IP) (hostname : String) :
    Option Error × List Event :=
  -- fail early if hostname is just an IP address
  if (N.ParseIP hostname).isSome then (some Error.ErrIP, [])
  else
    -- fast-path: use normal system resolver
    if fastPath N publicIPs hostname then (none, [Event.LookupIP hostname])
    else
      ((slowPath N publicIPs hostname).1,
        Event.LookupIP hostname :: (slowPath N publicIPs hostname).2)


/-! ## `PreCheck` with the shared deadline made explicit

`PreCheck` creates one context with `context.WithTimeout(ctx, 5*time.Second)`
and hands it to every `client.ExchangeContext`; `net.LookupIP` and
`net.LookupNS` do not take the context, but the time they need passes all the
same.  Below, time is counted in milliseconds from the creation of the context,
`cost` gives the time each call takes when nothing cuts it short (for a
nameserver that never answers, the time after which the client gives up), and
`N.Exchange` is the outcome of a direct query that is allowed to run to its
end.  The parent context is taken to have no earlier deadline. -/

/-- The duration `5*time.Second` of the context of `PreCheck`, in
milliseconds. -/
def timeout : Nat := 5000

/-- The call `client.ExchangeContext(ctx, msg, nsAddr)` made `elapsed`
milliseconds after the context was created: the outcome and the time afterwards.
A query that would not be over before the deadline fails when the deadline
expires, or at once when it has already expired. -/
def ExchangeContext (N : Net) (cost : Event → Nat) (elapsed : Nat) (addr qname : String) :
    Option (List RR) × Nat :=
  if elapsed + cost (Event.Exchange addr qname) < timeout then
    (N.Exchange addr qname, elapsed + cost (Event.Exchange addr qname))
  else (none, max elapsed timeout)

/-- The loop `for _, ans := range resp.Answer`, started `elapsed` milliseconds
after the context was created: whether it returned `nil`, and the time
afterwards. -/
def answerLoopTimed (N : Net) (cost : Event → Nat) (publicIPs : List IP) :
    List RR → Nat → Bool × Nat
  | [], elapsed => (false, elapsed)
  | RR.A a :: rest, elapsed =>
    if isPublic publicIPs a then (true, elapsed)
    else answerLoopTimed N cost publicIPs rest elapsed
  | RR.CNAME target :: rest, elapsed =>
    -- Resolve the CNAME target using system resolver.
    match N.LookupIP target with
    | none => answerLoopTimed N cost publicIPs rest (elapsed + cost (Event.LookupIP target))
    | some ips =>
      if anyPublic publicIPs ips then (true, elapsed + cost (Event.LookupIP target))
      else answerLoopTimed N cost publicIPs rest (elapsed + cost (Event.LookupIP target))
  | RR.other :: rest, elapsed => answerLoopTimed N cost publicIPs rest elapsed

/-- The loop `for _, ns := range nsRecords`, started `elapsed` milliseconds after
the context was created: whether it returned `nil`, and the time afterwards. -/
def queryLoopTimed (N : Net) (cost : Event → Nat) (publicIPs : List IP) (hostname : String) :
    List NS → Nat → Bool × Nat
  | [], elapsed => (false, elapsed)
  | ns :: rest, elapsed =>
    match (ExchangeContext N cost elapsed (nsAddr ns) (N.Fqdn hostname)).1 with
    | none =>
      queryLoopTimed N cost publicIPs hostname rest
        (ExchangeContext N cost elapsed (nsAddr ns) (N.Fqdn hostname)).2
    | some answer =>
      if (answerLoopTimed N cost publicIPs answer
          (ExchangeContext N cost elapsed (nsAddr ns) (N.Fqdn hostname)).2).1 then
        (true, (answerLoopTimed N cost publicIPs answer
          (ExchangeContext N cost elapsed (nsAddr ns) (N.Fqdn hostname)).2).2)
      else
        queryLoopTimed N cost publicIPs hostname rest
          (answerLoopTimed N cost publicIPs answer
            (ExchangeContext N cost elapsed (nsAddr ns) (N.Fqdn hostname)).2).2

/-- The time at which the nameserver loop of `PreCheck` starts: the fast-path
lookup and the NS lookups of `getNSRecords` have been made. -/
def slowPathStart (N : Net) (cost : Event → Nat) (hostname : String) : Nat :=
  cost (Event.LookupIP hostname) + ((getNSRecords N hostname).2.map cost).sum

/-- The function `PreCheck` with the deadline of its context: the returned error
(`none` for `nil`). -/
def PreCheckTimed (N : Net) (cost : Event → Nat) (publicIPs : List IP) (hostname : String) :
    Option Error :=
  -- fail early if hostname is just an IP address
  if (N.ParseIP hostname).isSome then some Error.ErrIP
  else
    -- fast-path: use normal system resolver
    if fastPath N publicIPs hostname then none
    else
      match (getNSRecords N hostname).1 with
      | Except.error err => some err
      | Except.ok nsRecords =>
        if (queryLoopTimed N cost publicIPs hostname nsRecords
            (slowPathStart N cost hostname)).1 then none
        else some Error.ErrNotUs

/-! ## Example environments

Concrete environments for the scenarios of `precheck_test.go` (registry
`127.0.0.1`; `doesnotexist.invalid`, `google.com`, `foo.localtest.me`) and for
the alias and failing-nameserver scenarios. -/

/-- One decimal field of a dotted-quad address: one to three digits, no leading
zero, at most 255. -/
def parseOctet (s : List Char) : Option Nat :=
  if s = [] ∨ 3 < s.length ∨ s.all Char.isDigit = false ∨ (1 < s.length ∧ s.head? = some '0')
  then none
  else
    let n := s.foldl (fun acc c => 10 * acc + (c.toNat - 48)) 0
    if n ≤ 255 then some n else none

/-- The IPv4 half of `net.ParseIP`: a dotted-quad literal, in 16-byte form. -/
def parseDottedQuad (s : String) : Option IP :=
  match (splitChars '.' s.data).map parseOctet with
  | [some a, some b, some c, some d] => some (IPv4 a b c d)
  | _ => none

/-- The function `dns.Fqdn` on names without escaped dots: add the root dot when
it is missing. -/
def fqdnPlain (s : String) : String :=
  if s.data.getLast? = some '.' then s else s ++ "."

/-- The registry of the tests: `[]net.IP{net.ParseIP("127.0.0.1")}`. -/
def testPublicIPs : List IP := [IPv4 127 0 0 1]

/-- An example DNS state.
* `foo.localtest.me` and `a.b.c.d.e.f.g.h.foo.localtest.me` (eleven labels)
  resolve to 127.0.0.1.
* `google.com` resolves elsewhere and its nameservers agree.
* `alias.example.org` has no address at the resolver; the nameservers of
  `example.org` answer with a CNAME to `target.example.net.`, which resolves to
  127.0.0.1.
* `www.example.org` resolves elsewhere at the resolver; the first nameserver of
  `example.org` does not answer, the second answers with the A record 127.0.0.1.
* every other name, such as `doesnotexist.invalid`, does not exist. -/
def testNet : Net where
  ParseIP := parseDottedQuad
  LookupIP := fun host =>
    if host = "foo.localtest.me" then some [IPv4 127 0 0 1]
    else if host = "a.b.c.d.e.f.g.h.foo.localtest.me" then some [IPv4 127 0 0 1]
    else if host = "google.com" then
      some [IPv4 142 250 80 46, [0x2a, 0, 0x14, 0x50, 0x40, 0x01, 0x08, 0x30, 0, 0, 0, 0, 0, 0, 0x20, 0x0e]]
    else if host = "target.example.net." then some [IPv4 127 0 0 1]
    else if host = "www.example.org" then some [IPv4 93 184 216 34]
    else none
  LookupNS := fun name =>
    if name = "google.com" then some [⟨"ns1.google.com."⟩, ⟨"ns2.google.com."⟩]
    else if name = "example.org" then some [⟨"ns1.example.org."⟩, ⟨"ns2.example.org."⟩]
    else if name = "org" then some [⟨"a0.org.afilias-nst.info."⟩]
    else none
  Fqdn := fqdnPlain
  Exchange := fun addr qname =>
    if addr = "ns1.google.com:53" ∧ qname = "google.com." then some [RR.A [142, 250, 80, 46]]
    else if addr = "ns2.google.com:53" ∧ qname = "google.com." then some [RR.A [142, 250, 80, 46]]
    else if addr = "ns1.example.org:53" ∧ qname = "alias.example.org." then
      some [RR.other, RR.CNAME "target.example.net."]
    else if addr = "ns2.example.org:53" ∧ qname = "www.example.org." then
      some [RR.A [127, 0, 0, 1]]
    else none

/-- Durations in `testNet`: a direct query to `ns1.example.org`, which does not
answer, takes the 2 seconds after which the DNS client gives up; every other
call takes 20 milliseconds. -/
def testCost : Event → Nat
  | Event.Exchange addr _ => if addr = "ns1.example.org:53" then 2000 else 20
  | _ => 20

/-- A DNS state with three silent nameservers: the resolver has no address for
`www.example.net` and lists four nameservers for `example.net`; the first three
never answer, the fourth answers with the A record 127.0.0.1. -/
def silentNet : Net where
  ParseIP := parseDottedQuad
  LookupIP := fun _ => none
  LookupNS := fun name =>
    if name = "example.net" then
      some [⟨"ns1.example.net."⟩, ⟨"ns2.example.net."⟩, ⟨"ns3.example.net."⟩,
        ⟨"ns4.example.net."⟩]
    else none
  Fqdn := fqdnPlain
  Exchange := fun addr qname =>
    if addr = "ns4.example.net:53" ∧ qname = "www.example.net." then some [RR.A [127, 0, 0, 1]]
    else none

/-- Durations in `silentNet`: a direct query to `ns4.example.net` takes 30
milliseconds, a direct query to one of the silent nameservers the 2 seconds
after which the DNS client gives up, every other call 20 milliseconds. -/
def silentCost : Event → Nat
  | Event.Exchange addr _ => if addr = "ns4.example.net:53" then 30 else 2000
  | _ => 20

/-! ## Properties -/

theorem length_eq_four {l : List Nat} (h : l.length = 4) :
    ∃ a b c d, l = [a, b, c, d] := by
  match l, h with
  | [a, b, c, d], _ => exact ⟨a, b, c, d, rfl⟩

theorem length_eq_sixteen {l : List Nat} (h : l.length = 16) :
    ∃ a0 a1 a2 a3 a4 a5 a6 a7 a8 a9 a10 a11 a12 a13 a14 a15,
      l = [a0, a1, a2, a3, a4, a5, a6, a7, a8, a9, a10, a11, a12, a13, a14, a15] := by
  match l, h with
  | [a0, a1, a2, a3, a4, a5, a6, a7, a8, a9, a10, a11, a12, a13, a14, a15], _ =>
    exact ⟨a0, a1, a2, a3, a4, a5, a6, a7, a8, a9, a10, a11, a12, a13, a14, a15, rfl⟩

/-- An address and its `To4` form are `Equal` to the same addresses. -/
theorem Equal_To4 (pub ip ip4 : IP) (h : To4 ip = some ip4) :
    Equal pub ip4 = Equal pub ip := by
  unfold To4 at h
  split at h
  · simp at h; subst h; rfl
  · split at h
    · rename_i h4 h16
      obtain ⟨hl, hz, h10, h11⟩ := h16
      simp at h
      obtain ⟨a0, a1, a2, a3, a4, a5, a6, a7, a8, a9, a10, a11, a12, a13, a14, a15, rfl⟩ :=
        length_eq_sixteen hl
      simp [isZeros] at hz h10 h11 h
      obtain ⟨rfl, rfl, rfl, rfl, rfl, rfl, rfl, rfl, rfl, rfl⟩ := hz
      subst h10 h11 h
      by_cases hp4 : pub.length = 4
      · obtain ⟨b0, b1, b2, b3, rfl⟩ := length_eq_four hp4
        simp [Equal, IPv4len, IPv6len, v4InV6Prefix]
      · by_cases hp16 : pub.length = 16
        · obtain ⟨b0, b1, b2, b3, b4, b5, b6, b7, b8, b9, b10, b11, b12, b13, b14, b15, rfl⟩ :=
            length_eq_sixteen hp16
          simp [Equal, IPv4len, IPv6len, v4InV6Prefix, Bool.and_assoc]
        · simp [Equal, IPv4len, IPv6len, hp4, hp16]
    · simp at h



theorem isPublic_To4 (publicIPs : List IP) (ip ip4 : IP) (h : To4 ip = some ip4) :
    isPublic publicIPs ip4 = isPublic publicIPs ip := by
  unfold isPublic
  congr 1
  funext pubIP
  exact Equal_To4 pubIP ip ip4 h

theorem isPublic_eq_true_iff (publicIPs : List IP) (ip : IP) :
    isPublic publicIPs ip = true ↔ ∃ pubIP ∈ publicIPs, Equal pubIP ip = true := by
  simp [isPublic]

/-- The fast-path loop succeeds exactly when some returned address is an IPv4
address (its `To4` is not `nil`) that is `Equal` to a registry member. -/
theorem anyPublic_eq_true_iff (publicIPs ips : List IP) :
    anyPublic publicIPs ips = true ↔
      ∃ ip ∈ ips, (To4 ip).isSome = true ∧ ∃ pubIP ∈ publicIPs, Equal pubIP ip = true := by
  unfold anyPublic
  rw [List.any_eq_true]
  constructor
  · rintro ⟨ip, hin, h⟩
    cases hto : To4 ip with
    | none => simp [hto] at h
    | some ip4 =>
      simp only [hto] at h
      rw [isPublic_To4 publicIPs ip ip4 hto] at h
      exact ⟨ip, hin, by simp [hto], (isPublic_eq_true_iff publicIPs ip).1 h⟩
  · rintro ⟨ip, hin, h4, hpub⟩
    refine ⟨ip, hin, ?_⟩
    cases hto : To4 ip with
    | none => simp [hto] at h4
    | some ip4 =>
      simp only
      rw [isPublic_To4 publicIPs ip ip4 hto]
      exact (isPublic_eq_true_iff publicIPs ip).2 hpub

theorem anyPublic_eq_false_of (publicIPs ips : List IP)
    (h : ∀ ip ∈ ips, ∀ pubIP ∈ publicIPs, Equal pubIP ip = false) :
    anyPublic publicIPs ips = false := by
  cases hany : anyPublic publicIPs ips with
  | false => rfl
  | true =>
    obtain ⟨ip, hin, _, pubIP, hp, he⟩ := (anyPublic_eq_true_iff publicIPs ips).1 hany
    rw [h ip hin pubIP hp] at he
    exact absurd he (by decide)

theorem getNSRecords_too_many (N : Net) (host : String)
    (hlab : 10 < (Split host '.').length) :
    getNSRecords N host = (Except.error Error.ErrTooManyDots, []) := by
  simp [getNSRecords, hlab]

theorem slowPath_too_many (N : Net) (publicIPs : List IP) (hostname : String)
    (hlab : 10 < (Split hostname '.').length) :
    slowPath N publicIPs hostname = (some Error.ErrTooManyDots, []) := by
  simp [slowPath, getNSRecords_too_many N hostname hlab]

/-- C1 (as amended): for a hostname that is not an IP literal and has more than
10 dot-separated labels, `PreCheck` makes exactly one call, the fast-path
address lookup at the system resolver; it returns `nil` when that lookup yields
an IPv4 address of the registry and `ErrTooManyDots` otherwise, and in both
cases makes no NS lookup and no direct nameserver query. -/
theorem PreCheck_too_many_labels (N : Net) (publicIPs : List IP) (hostname : String)
    (hlit : N.ParseIP hostname = none) (hlab : 10 < (Split hostname '.').length) :
    PreCheck N publicIPs hostname =
      (if fastPath N publicIPs hostname then none else some Error.ErrTooManyDots,
        [Event.LookupIP hostname]) := by
  unfold PreCheck
  rw [hlit, slowPath_too_many N publicIPs hostname hlab]
  by_cases hf : fastPath N publicIPs hostname = true
  · simp [hf]
  · simp [hf]

/-- C1, witness of the amended statement: the eleven-label name
`a.b.c.d.e.f.g.h.i.j.invalid`. -/
theorem PreCheck_too_many_labels_witness :
    testNet.ParseIP "a.b.c.d.e.f.g.h.i.j.invalid" = none ∧
    10 < (Split "a.b.c.d.e.f.g.h.i.j.invalid" '.').length ∧
    PreCheck testNet testPublicIPs "a.b.c.d.e.f.g.h.i.j.invalid" =
      (if fastPath testNet testPublicIPs "a.b.c.d.e.f.g.h.i.j.invalid" then none
        else some Error.ErrTooManyDots,
        [Event.LookupIP "a.b.c.d.e.f.g.h.i.j.invalid"]) :=
  ⟨by decide, by decide,
    PreCheck_too_many_labels testNet testPublicIPs "a.b.c.d.e.f.g.h.i.j.invalid"
      (by decide) (by decide)⟩

/-- C1, counterexample to the statement as written: the eleven-label name
`a.b.c.d.e.f.g.h.foo.localtest.me` is not an IP literal, yet `PreCheck` asks the
system resolver for it and, the answer 127.0.0.1 being in the registry, returns
`nil` instead of `ErrTooManyDots`; and for the eleven-label name
`a.b.c.d.e.f.g.h.i.j.invalid`, which is denied with `ErrTooManyDots`, the
system resolver has been called all the same. -/
theorem PreCheck_too_many_labels_counterexample :
    (testNet.ParseIP "a.b.c.d.e.f.g.h.foo.localtest.me" = none ∧
      (Split "a.b.c.d.e.f.g.h.foo.localtest.me" '.').length = 11 ∧
      PreCheck testNet testPublicIPs "a.b.c.d.e.f.g.h.foo.localtest.me" =
        (none, [Event.LookupIP "a.b.c.d.e.f.g.h.foo.localtest.me"])) ∧
    (testNet.ParseIP "a.b.c.d.e.f.g.h.i.j.invalid" = none ∧
      (Split "a.b.c.d.e.f.g.h.i.j.invalid" '.').length = 11 ∧
      PreCheck testNet testPublicIPs "a.b.c.d.e.f.g.h.i.j.invalid" =
        (some Error.ErrTooManyDots, [Event.LookupIP "a.b.c.d.e.f.g.h.i.j.invalid"])) := by
  decide

theorem PreCheck_literal_ErrIP (N : Net) (publicIPs : List IP) (hostname : String)
    (h : (N.ParseIP hostname).isSome = true) :
    PreCheck N publicIPs hostname = (some Error.ErrIP, []) := by
  simp [PreCheck, h]

/-- C2: when `net.ParseIP` accepts the hostname, `PreCheck` returns `ErrIP`
and makes no call at all (no address lookup, no NS lookup, no direct query),
whatever the registry holds. -/
theorem PreCheck_literal_IP (N : Net) (publicIPs : List IP) (hostname : String)
    (h : N.ParseIP hostname ≠ none) :
    PreCheck N publicIPs hostname = (some Error.ErrIP, []) := by
  unfold PreCheck
  cases hp : N.ParseIP hostname with
  | none => exact absurd hp h
  | some ip => simp

/-- C2, witness: the literal `192.0.2.7`. -/
theorem PreCheck_literal_IP_witness :
    testNet.ParseIP "192.0.2.7" ≠ none ∧
    PreCheck testNet testPublicIPs "192.0.2.7" = (some Error.ErrIP, []) :=
  ⟨by decide, PreCheck_literal_IP testNet testPublicIPs "192.0.2.7" (by decide)⟩

/-- C4: when the hostname is not an IP literal and the system resolver returns
a list holding an IPv4 address that is `Equal` to a registry member, `PreCheck`
returns `nil` and its only call is that address lookup: no NS lookup and no
direct nameserver query. -/
theorem PreCheck_fast_path (N : Net) (publicIPs : List IP) (hostname : String)
    (ips : List IP) (ip pubIP : IP)
    (hlit : N.ParseIP hostname = none)
    (hlook : N.LookupIP hostname = some ips)
    (hin : ip ∈ ips) (h4 : (To4 ip).isSome = true)
    (hpub : pubIP ∈ publicIPs) (heq : Equal pubIP ip = true) :
    PreCheck N publicIPs hostname = (none, [Event.LookupIP hostname]) := by
  have hf : fastPath N publicIPs hostname = true := by
    unfold fastPath
    rw [hlook]
    exact (anyPublic_eq_true_iff publicIPs ips).2 ⟨ip, hin, h4, pubIP, hpub, heq⟩
  simp [PreCheck, hlit, hf]

/-- C4, witness: registry `127.0.0.1`, `foo.localtest.me` resolving to
127.0.0.1 (the case `ValidAndLocal` of the tests). -/
theorem PreCheck_fast_path_witness :
    PreCheck testNet testPublicIPs "foo.localtest.me" =
      (none, [Event.LookupIP "foo.localtest.me"]) :=
  PreCheck_fast_path testNet testPublicIPs "foo.localtest.me"
    [IPv4 127 0 0 1] (IPv4 127 0 0 1) (IPv4 127 0 0 1)
    (by decide) (by decide) (by decide) (by decide) (by decide) (by decide)


/-! ### `init` -/

/-- Every address that `init` takes from a network interface has four bytes and
is not the broadcast, unspecified, loopback, multicast or link-local address. -/
theorem initIfaces_mem (ifaces : List (List Addr)) (ip : IP) (h : ip ∈ initIfaces ifaces) :
    ip.length = 4 ∧ IsLoopback ip = false ∧ IsLinkLocalUnicast ip = false ∧
      IsMulticast ip = false ∧ IsUnspecified ip = false := by
  unfold initIfaces at h
  rw [List.mem_filterMap] at h
  obtain ⟨addr, _, hk⟩ := h
  have key : ∀ o : Option IP,
      (match o.bind To4 with
        | some ip => if IsGlobalUnicast ip then some ip else none
        | none => none) = some ip →
      ip.length = 4 ∧ IsLoopback ip = false ∧ IsLinkLocalUnicast ip = false ∧
        IsMulticast ip = false ∧ IsUnspecified ip = false := by
    intro o ho
    cases hb : o.bind To4 with
    | none => simp [hb] at ho
    | some ip4 =>
      simp only [hb] at ho
      by_cases hg : IsGlobalUnicast ip4 = true
      · simp only [hg, if_true, Option.some.injEq] at ho
        subst ho
        have hlen : ip4.length = 4 := by
          cases o with
          | none => simp at hb
          | some x =>
            simp only [Option.some_bind] at hb
            unfold To4 at hb
            split at hb
            · simp at hb; subst hb; assumption
            · split at hb
              · rename_i h16
                simp at hb
                subst hb
                have := h16.1
                simp [IPv6len] at this
                simp [this]
              · simp at hb
        simp only [IsGlobalUnicast, Bool.and_eq_true, Bool.not_eq_true'] at hg
        exact ⟨hlen, hg.1.1.2, hg.2, hg.1.2, hg.1.1.1.2⟩
      · simp [hg] at ho
  cases addr with
  | IPNet o => exact key o hk
  | IPAddr o => exact key o hk
  | other => simp [ifaceAddr] at hk

/-- C3 (failing inputs): an interface that carries the private address
192.168.1.10, 10.0.0.5 or 172.16.0.9 makes `init` add that address to
`publicIPs`: the filter `ip.To4() != nil && ip.IsGlobalUnicast()` lets the three
private ranges through. -/
theorem init_adds_private_addresses :
    (init testNet "" [[Addr.IPNet (some (IPv4 192 168 1 10))]] = [[192, 168, 1, 10]] ∧
      IsPrivate [192, 168, 1, 10] = true) ∧
    (init testNet "" [[Addr.IPNet (some (IPv4 10 0 0 5))]] = [[10, 0, 0, 5]] ∧
      IsPrivate [10, 0, 0, 5] = true) ∧
    (init testNet "" [[Addr.IPAddr (some [172, 16, 0, 9])]] = [[172, 16, 0, 9]] ∧
      IsPrivate [172, 16, 0, 9] = true) := by
  decide


/-! ### `getNSRecords` -/

theorem hasNS_eq_false_iff (N : Net) (name : String) :
    hasNS N name = false ↔ ∀ nsRecords, N.LookupNS name = some nsRecords → nsRecords = [] := by
  unfold hasNS
  cases h : N.LookupNS name with
  | none => simp
  | some l => cases l <;> simp

theorem hasNS_of_lookup (N : Net) (name : String) (nsRecords : List NS)
    (h : N.LookupNS name = some nsRecords) (hne : nsRecords ≠ []) : hasNS N name = true := by
  unfold hasNS
  rw [h]
  cases nsRecords with
  | nil => exact absurd rfl hne
  | cons a l => simp

theorem nsLoop_cons_miss (N : Net) (labels : List String) (i : Nat) (rest : List Nat)
    (h : hasNS N (Join (labels.drop i) ".") = false) :
    nsLoop N labels (i :: rest) =
      ((nsLoop N labels rest).1,
        Event.LookupNS (Join (labels.drop i) ".") :: (nsLoop N labels rest).2) := by
  unfold hasNS at h
  rw [nsLoop]
  cases hl : N.LookupNS (Join (labels.drop i) ".") with
  | none => rfl
  | some l =>
    rw [hl] at h
    have : ¬ l.length > 0 := by simpa using h
    simp [this]

theorem nsLoop_cons_hit (N : Net) (labels : List String) (i : Nat) (rest : List Nat)
    (nsRecords : List NS) (h : N.LookupNS (Join (labels.drop i) ".") = some nsRecords)
    (hne : nsRecords ≠ []) :
    nsLoop N labels (i :: rest) =
      (Except.ok nsRecords, [Event.LookupNS (Join (labels.drop i) ".")]) := by
  rw [nsLoop]
  have : nsRecords.length > 0 := List.length_pos.2 hne
  simp [h, this]

theorem nsLoop_all_miss (N : Net) (labels : List String) (is : List Nat)
    (h : ∀ i ∈ is, hasNS N (Join (labels.drop i) ".") = false) :
    nsLoop N labels is =
      (Except.error Error.ErrNoNS, is.map (fun i => Event.LookupNS (Join (labels.drop i) "."))) := by
  induction is with
  | nil => rfl
  | cons i rest ih =>
    rw [nsLoop_cons_miss N labels i rest (h i (List.mem_cons_self _ _)),
      ih (fun j hj => h j (List.mem_cons_of_mem _ hj))]
    rfl

theorem nsLoop_first_hit (N : Net) (labels : List String) (pre : List Nat) (i : Nat)
    (post : List Nat) (nsRecords : List NS)
    (hpre : ∀ j ∈ pre, hasNS N (Join (labels.drop j) ".") = false)
    (h : N.LookupNS (Join (labels.drop i) ".") = some nsRecords) (hne : nsRecords ≠ []) :
    nsLoop N labels (pre ++ i :: post) =
      (Except.ok nsRecords,
        (pre ++ [i]).map (fun j => Event.LookupNS (Join (labels.drop j) "."))) := by
  induction pre with
  | nil => simpa using nsLoop_cons_hit N labels i post nsRecords h hne
  | cons j pre ih =>
    rw [List.cons_append, nsLoop_cons_miss N labels j _ (hpre j (List.mem_cons_self _ _)),
      ih (fun k hk => hpre k (List.mem_cons_of_mem _ hk))]
    rfl

theorem nsLoop_error_iff (N : Net) (labels : List String) (is : List Nat) (e : Error) :
    (nsLoop N labels is).1 = Except.error e ↔
      e = Error.ErrNoNS ∧ ∀ i ∈ is, hasNS N (Join (labels.drop i) ".") = false := by
  induction is with
  | nil =>
    simp only [nsLoop, Except.error.injEq, List.not_mem_nil, false_implies, implies_true,
      and_true]
    exact eq_comm
  | cons i rest ih =>
    cases hh : hasNS N (Join (labels.drop i) ".") with
    | false =>
      rw [nsLoop_cons_miss N labels i rest hh]
      simp only [ih, List.mem_cons, forall_eq_or_imp, hh, true_and]
    | true =>
      unfold hasNS at hh
      cases hl : N.LookupNS (Join (labels.drop i) ".") with
      | none => simp [hl] at hh
      | some l =>
        have hne : l ≠ [] := by
          rintro rfl
          simp [hl] at hh
        rw [nsLoop_cons_hit N labels i rest l hl hne]
        simp [hasNS, hl, List.length_pos.2 hne]

theorem nsLoop_length_le (N : Net) (labels : List String) (is : List Nat) :
    (nsLoop N labels is).2.length ≤ is.length := by
  induction is with
  | nil => simp [nsLoop]
  | cons i rest ih =>
    cases hh : hasNS N (Join (labels.drop i) ".") with
    | false =>
      rw [nsLoop_cons_miss N labels i rest hh]
      simpa using ih
    | true =>
      unfold hasNS at hh
      cases hl : N.LookupNS (Join (labels.drop i) ".") with
      | none => simp [hl] at hh
      | some l =>
        have hne : l ≠ [] := by
          rintro rfl
          simp [hl] at hh
        rw [nsLoop_cons_hit N labels i rest l hl hne]
        simp

theorem range_split {i n : Nat} (h : i < n) :
    ∃ post, List.range n = List.range i ++ i :: post := by
  induction n with
  | zero => exact absurd h (Nat.not_lt_zero _)
  | succ n ih =>
    rw [List.range_succ]
    rcases Nat.lt_succ_iff_lt_or_eq.1 h with hlt | rfl
    · obtain ⟨post, hp⟩ := ih hlt
      exact ⟨post ++ [n], by rw [hp]; simp⟩
    · exact ⟨[], rfl⟩

theorem getNSRecords_eq_nsLoop (N : Net) (host : String)
    (hlab : (Split host '.').length ≤ 10) :
    getNSRecords N host =
      nsLoop N (Split host '.') (List.range (Split host '.').length) := by
  have : ¬ (Split host '.').length > 10 := Nat.not_lt.2 hlab
  simp [getNSRecords, this]

/-- C10: for a hostname with at most 10 labels, `getNSRecords` looks up the
candidates `candidate host 0` (the hostname itself), `candidate host 1`, ... in
this order.  (1) If round `i` is the first whose lookup succeeds with a
non-empty list, that list is returned and the lookups made are exactly those of
rounds `0..i`, none after it.  (2) The result is `ErrNoNS` exactly when no round
has a successful non-empty lookup, (3) and then every candidate has been looked
up once, in order.  (4) In all cases at most as many lookups are made as there
are labels. -/
theorem getNSRecords_walk (N : Net) (host : String)
    (hlab : (Split host '.').length ≤ 10) :
    (∀ i nsRecords, i < (Split host '.').length →
        N.LookupNS (candidate host i) = some nsRecords → nsRecords ≠ [] →
        (∀ j < i, hasNS N (candidate host j) = false) →
        getNSRecords N host =
          (Except.ok nsRecords,
            (List.range (i + 1)).map (fun j => Event.LookupNS (candidate host j)))) ∧
    ((getNSRecords N host).1 = Except.error Error.ErrNoNS ↔
        ∀ i < (Split host '.').length, hasNS N (candidate host i) = false) ∧
    ((∀ i < (Split host '.').length, hasNS N (candidate host i) = false) →
        (getNSRecords N host).2 =
          (List.range (Split host '.').length).map
            (fun j => Event.LookupNS (candidate host j))) ∧
    (getNSRecords N host).2.length ≤ (Split host '.').length := by
  rw [getNSRecords_eq_nsLoop N host hlab]
  refine ⟨?_, ?_, ?_, ?_⟩
  · intro i nsRecords hi hl hne hpre
    obtain ⟨post, hp⟩ := range_split hi
    rw [hp, nsLoop_first_hit N (Split host '.') (List.range i) i post nsRecords
      (fun j hj => hpre j (List.mem_range.1 hj)) hl hne, List.range_succ]
    rfl
  · rw [nsLoop_error_iff]
    simp only [true_and, List.mem_range]
    rfl
  · intro h
    rw [nsLoop_all_miss N (Split host '.') _ (fun i hi => h i (List.mem_range.1 hi))]
    rfl
  · simpa using nsLoop_length_le N (Split host '.') (List.range (Split host '.').length)

/-- C10, witness: `www.example.org` (three labels); the resolver has no NS
records for the name itself and returns two for `example.org`, so round 1 wins
and `org` is never looked up. -/
theorem getNSRecords_walk_witness :
    (Split "www.example.org" '.').length ≤ 10 ∧
    getNSRecords testNet "www.example.org" =
      (Except.ok [⟨"ns1.example.org."⟩, ⟨"ns2.example.org."⟩],
        [Event.LookupNS "www.example.org", Event.LookupNS "example.org"]) :=
  ⟨by decide,
    (getNSRecords_walk testNet "www.example.org" (by decide)).1 1
      [⟨"ns1.example.org."⟩, ⟨"ns2.example.org."⟩] (by decide) (by decide) (by decide)
      (by decide)⟩


/-! ### The slow path -/

/-- The answer loop returns `nil` exactly when some record is an A record with a
registry address, or a CNAME whose target the system resolver resolves to an
IPv4 address of the registry. -/
theorem answerLoop_eq_true_iff (N : Net) (publicIPs : List IP) (answer : List RR) :
    (answerLoop N publicIPs answer).1 = true ↔
      (∃ a, RR.A a ∈ answer ∧ isPublic publicIPs a = true) ∨
      (∃ target ips, RR.CNAME target ∈ answer ∧ N.LookupIP target = some ips ∧
        anyPublic publicIPs ips = true) := by
  induction answer with
  | nil => simp [answerLoop]
  | cons rr rest ih =>
    cases rr with
    | A a =>
      rw [answerLoop]
      by_cases hp : isPublic publicIPs a = true
      · simp only [hp, if_true, true_iff]
        exact Or.inl ⟨a, List.mem_cons_self _ _, hp⟩
      · simp only [hp, Bool.false_eq_true, if_false, ih, List.mem_cons, RR.A.injEq, reduceCtorEq,
          false_or]
        constructor
        · rintro (⟨b, hb, hpb⟩ | h)
          · exact Or.inl ⟨b, Or.inr hb, hpb⟩
          · exact Or.inr h
        · rintro (⟨b, hb | hb, hpb⟩ | h)
          · subst hb; exact absurd hpb hp
          · exact Or.inl ⟨b, hb, hpb⟩
          · exact Or.inr h
    | CNAME target =>
      rw [answerLoop]
      cases hl : N.LookupIP target with
      | none =>
        simp only [ih, List.mem_cons, reduceCtorEq, false_or, RR.CNAME.injEq]
        constructor
        · rintro (h | ⟨t, ips, ht, hlt, hat⟩)
          · exact Or.inl h
          · exact Or.inr ⟨t, ips, Or.inr ht, hlt, hat⟩
        · rintro (h | ⟨t, ips, ht | ht, hlt, hat⟩)
          · exact Or.inl h
          · subst ht; rw [hl] at hlt; exact absurd hlt (by simp)
          · exact Or.inr ⟨t, ips, ht, hlt, hat⟩
      | some ips0 =>
        by_cases hp : anyPublic publicIPs ips0 = true
        · simp only [hp, if_true, true_iff]
          exact Or.inr ⟨target, ips0, List.mem_cons_self _ _, hl, hp⟩
        · simp only [hp, Bool.false_eq_true, if_false, ih, List.mem_cons, reduceCtorEq, false_or,
            RR.CNAME.injEq]
          constructor
          · rintro (h | ⟨t, ips, ht, hlt, hat⟩)
            · exact Or.inl h
            · exact Or.inr ⟨t, ips, Or.inr ht, hlt, hat⟩
          · rintro (h | ⟨t, ips, ht | ht, hlt, hat⟩)
            · exact Or.inl h
            · subst ht
              rw [hl] at hlt
              simp only [Option.some.injEq] at hlt
              subst hlt
              exact absurd hat hp
            · exact Or.inr ⟨t, ips, ht, hlt, hat⟩
    | other =>
      rw [answerLoop]
      simp only [ih, List.mem_cons, reduceCtorEq, false_or]

/-- The nameserver loop returns `nil` exactly when some nameserver of the list
answers the direct query and the answer loop succeeds on its answer. -/
theorem queryLoop_eq_true_iff (N : Net) (publicIPs : List IP) (hostname : String)
    (nsRecords : List NS) :
    (queryLoop N publicIPs hostname nsRecords).1 = true ↔
      ∃ ns ∈ nsRecords, ∃ answer,
        N.Exchange (nsAddr ns) (N.Fqdn hostname) = some answer ∧
        (answerLoop N publicIPs answer).1 = true := by
  induction nsRecords with
  | nil => simp [queryLoop]
  | cons ns rest ih =>
    rw [queryLoop]
    cases hx : N.Exchange (nsAddr ns) (N.Fqdn hostname) with
    | none =>
      simp only [ih, List.mem_cons, exists_eq_or_imp, hx, reduceCtorEq, false_and, exists_false,
        false_or]
    | some answer =>
      by_cases ha : (answerLoop N publicIPs answer).1 = true
      · simp only [ha, if_true, true_iff]
        exact ⟨ns, List.mem_cons_self _ _, answer, hx, ha⟩
      · simp only [ha, Bool.false_eq_true, if_false, ih, List.mem_cons, exists_eq_or_imp, hx,
          Option.some.injEq, exists_eq_left', false_or]

/-- The result of `PreCheck` on a hostname that is not an IP literal, whose fast
path finds no match and for which `getNSRecords` returns `nsRecords`. -/
theorem PreCheck_slow (N : Net) (publicIPs : List IP) (hostname : String)
    (nsRecords : List NS)
    (hlit : N.ParseIP hostname = none) (hfast : fastPath N publicIPs hostname = false)
    (hns : (getNSRecords N hostname).1 = Except.ok nsRecords) :
    PreCheck N publicIPs hostname =
      (if (queryLoop N publicIPs hostname nsRecords).1 then none else some Error.ErrNotUs,
        Event.LookupIP hostname ::
          ((getNSRecords N hostname).2 ++ (queryLoop N publicIPs hostname nsRecords).2)) := by
  have hs : slowPath N publicIPs hostname =
      (if (queryLoop N publicIPs hostname nsRecords).1 then none else some Error.ErrNotUs,
        (getNSRecords N hostname).2 ++ (queryLoop N publicIPs hostname nsRecords).2) := by
    unfold slowPath
    rcases hg : getNSRecords N hostname with ⟨r, t⟩
    rw [hg] at hns
    simp only at hns
    subst hns
    by_cases hq : (queryLoop N publicIPs hostname nsRecords).1 = true
    · simp [hq]
    · simp [hq]
  unfold PreCheck
  rw [hlit, hfast, hs]
  simp

/-- The result of `PreCheck` on a hostname that is not an IP literal, whose fast
path finds no match and for which `getNSRecords` fails. -/
theorem PreCheck_slow_error (N : Net) (publicIPs : List IP) (hostname : String)
    (err : Error)
    (hlit : N.ParseIP hostname = none) (hfast : fastPath N publicIPs hostname = false)
    (hns : (getNSRecords N hostname).1 = Except.error err) :
    PreCheck N publicIPs hostname =
      (some err, Event.LookupIP hostname :: (getNSRecords N hostname).2) := by
  have hs : slowPath N publicIPs hostname = (some err, (getNSRecords N hostname).2) := by
    unfold slowPath
    rcases hg : getNSRecords N hostname with ⟨r, t⟩
    rw [hg] at hns
    simp only at hns
    subst hns
    rfl
  unfold PreCheck
  rw [hlit, hfast, hs]
  simp


theorem fastPath_eq_false_of (N : Net) (publicIPs : List IP) (hostname : String)
    (ips : List IP) (hlook : N.LookupIP hostname = some ips)
    (habs : ∀ ip ∈ ips, ∀ pubIP ∈ publicIPs, Equal pubIP ip = false) :
    fastPath N publicIPs hostname = false := by
  unfold fastPath
  rw [hlook]
  exact anyPublic_eq_false_of publicIPs ips habs

/-- A nameserver of the discovered list whose direct answer makes the answer loop
succeed makes `PreCheck` return `nil`, whatever the other nameservers do. -/
theorem PreCheck_of_answer (N : Net) (publicIPs : List IP) (hostname : String)
    (nsRecords : List NS) (ns : NS) (answer : List RR)
    (hlit : N.ParseIP hostname = none) (hfast : fastPath N publicIPs hostname = false)
    (hns : (getNSRecords N hostname).1 = Except.ok nsRecords) (hmem : ns ∈ nsRecords)
    (hx : N.Exchange (nsAddr ns) (N.Fqdn hostname) = some answer)
    (ha : (answerLoop N publicIPs answer).1 = true) :
    (PreCheck N publicIPs hostname).1 = none := by
  rw [PreCheck_slow N publicIPs hostname nsRecords hlit hfast hns]
  have hq : (queryLoop N publicIPs hostname nsRecords).1 = true :=
    (queryLoop_eq_true_iff N publicIPs hostname nsRecords).2 ⟨ns, hmem, answer, hx, ha⟩
  simp [hq]

/-- C5: for a hostname that is not an IP literal, whose system-resolver lookup
succeeds with only addresses that are `Equal` to no registry member, and whose
discovered nameservers all answer the direct query with nothing but A records
whose addresses are `Equal` to no registry member, `PreCheck` returns
`ErrNotUs`. -/
theorem PreCheck_not_ours (N : Net) (publicIPs : List IP) (hostname : String)
    (ips : List IP) (nsRecords : List NS)
    (hlit : N.ParseIP hostname = none)
    (hlook : N.LookupIP hostname = some ips)
    (habs : ∀ ip ∈ ips, ∀ pubIP ∈ publicIPs, Equal pubIP ip = false)
    (hns : (getNSRecords N hostname).1 = Except.ok nsRecords)
    (hans : ∀ ns ∈ nsRecords, ∃ answer,
      N.Exchange (nsAddr ns) (N.Fqdn hostname) = some answer ∧
      ∀ rr ∈ answer, ∃ a, rr = RR.A a ∧ ∀ pubIP ∈ publicIPs, Equal pubIP a = false) :
    (PreCheck N publicIPs hostname).1 = some Error.ErrNotUs := by
  have hfast := fastPath_eq_false_of N publicIPs hostname ips hlook habs
  rw [PreCheck_slow N publicIPs hostname nsRecords hlit hfast hns]
  have hq : ¬ (queryLoop N publicIPs hostname nsRecords).1 = true := by
    rw [queryLoop_eq_true_iff]
    rintro ⟨ns, hmem, answer, hx, ha⟩
    obtain ⟨answer', hx', hall⟩ := hans ns hmem
    rw [hx] at hx'
    simp only [Option.some.injEq] at hx'
    subst hx'
    rcases (answerLoop_eq_true_iff N publicIPs answer).1 ha with ⟨a, hin, hp⟩ | ⟨t, _, hin, _, _⟩
    · obtain ⟨b, hb, hne⟩ := hall _ hin
      simp only [RR.A.injEq] at hb
      subst hb
      obtain ⟨pubIP, hpm, he⟩ := (isPublic_eq_true_iff publicIPs a).1 hp
      rw [hne pubIP hpm] at he
      exact absurd he (by decide)
    · obtain ⟨b, hb, _⟩ := hall _ hin
      exact absurd hb (by simp)
  simp [hq]

/-- C5, witness: registry `127.0.0.1`, hostname `google.com` (the case
`ValidButNotLocal` of the tests). -/
theorem PreCheck_not_ours_witness :
    (PreCheck testNet testPublicIPs "google.com").1 = some Error.ErrNotUs :=
  PreCheck_not_ours testNet testPublicIPs "google.com"
    [IPv4 142 250 80 46, [0x2a, 0, 0x14, 0x50, 0x40, 0x01, 0x08, 0x30, 0, 0, 0, 0, 0, 0, 0x20, 0x0e]]
    [⟨"ns1.google.com."⟩, ⟨"ns2.google.com."⟩]
    (by decide) (by decide) (by decide) rfl
    (by
      intro ns hmem
      refine ⟨[RR.A [142, 250, 80, 46]], ?_, ?_⟩
      · simp only [List.mem_cons, List.mem_singleton, List.not_mem_nil, or_false] at hmem
        rcases hmem with rfl | rfl <;> decide
      · intro rr hrr
        simp only [List.mem_singleton] at hrr
        subst hrr
        exact ⟨[142, 250, 80, 46], rfl, by decide⟩)

/-- C6 (as amended): for a hostname that is not an IP literal and has at most
10 dot-separated labels, if the system-resolver address lookup fails and the NS
lookup fails or is empty for every candidate, from the full hostname up to the
top-level label, `PreCheck` returns `ErrNoNS`. -/
theorem PreCheck_no_authority (N : Net) (publicIPs : List IP) (hostname : String)
    (hlit : N.ParseIP hostname = none)
    (hlab : (Split hostname '.').length ≤ 10)
    (hip : N.LookupIP hostname = none)
    (hnone : ∀ i < (Split hostname '.').length, ∀ nsRecords,
      N.LookupNS (candidate hostname i) = some nsRecords → nsRecords = []) :
    (PreCheck N publicIPs hostname).1 = some Error.ErrNoNS := by
  have hfast : fastPath N publicIPs hostname = false := by
    unfold fastPath
    rw [hip]
  have hns : (getNSRecords N hostname).1 = Except.error Error.ErrNoNS := by
    rw [getNSRecords_eq_nsLoop N hostname hlab, nsLoop_error_iff]
    refine ⟨rfl, fun i hi => ?_⟩
    exact (hasNS_eq_false_iff N _).2 (hnone i (List.mem_range.1 hi))
  rw [PreCheck_slow_error N publicIPs hostname Error.ErrNoNS hlit hfast hns]

/-- C6, witness of the amended statement: registry `127.0.0.1`, hostname
`doesnotexist.invalid` (the case `BadHostname` of the tests). -/
theorem PreCheck_no_authority_witness :
    (PreCheck testNet testPublicIPs "doesnotexist.invalid").1 = some Error.ErrNoNS :=
  PreCheck_no_authority testNet testPublicIPs "doesnotexist.invalid"
    (by decide) (by decide) (by decide) (by decide)

/-- C6, counterexample to the statement as written: the name
`a.b.c.d.e.f.g.h.i.j.invalid` does not exist in DNS at all (its address lookup
fails and the NS lookup fails for each of its eleven candidates), and `PreCheck`
returns `ErrTooManyDots`, not `ErrNoNS`. -/
theorem PreCheck_no_authority_counterexample :
    testNet.ParseIP "a.b.c.d.e.f.g.h.i.j.invalid" = none ∧
    testNet.LookupIP "a.b.c.d.e.f.g.h.i.j.invalid" = none ∧
    (Split "a.b.c.d.e.f.g.h.i.j.invalid" '.').length = 11 ∧
    (∀ i < 11, testNet.LookupNS (candidate "a.b.c.d.e.f.g.h.i.j.invalid" i) = none) ∧
    (PreCheck testNet testPublicIPs "a.b.c.d.e.f.g.h.i.j.invalid").1 =
      some Error.ErrTooManyDots ∧
    (PreCheck testNet testPublicIPs "a.b.c.d.e.f.g.h.i.j.invalid").1 ≠ some Error.ErrNoNS := by
  decide


/-! ### The calls made -/

theorem nsLoop_events (N : Net) (labels : List String) (is : List Nat) :
    ∀ e ∈ (nsLoop N labels is).2,
      ∃ i ∈ is, e = Event.LookupNS (Join (labels.drop i) ".") := by
  induction is with
  | nil => simp [nsLoop]
  | cons i rest ih =>
    intro e he
    rw [nsLoop] at he
    have hstep : e = Event.LookupNS (Join (labels.drop i) ".") ∨ e ∈ (nsLoop N labels rest).2 := by
      cases hl : N.LookupNS (Join (labels.drop i) ".") with
      | none =>
        rw [hl] at he
        simpa using he
      | some l =>
        rw [hl] at he
        by_cases hpos : l.length > 0
        · simp only [hpos, if_true, List.mem_singleton] at he
          exact Or.inl he
        · simp only [hpos, if_false, List.mem_cons] at he
          exact he
    rcases hstep with h | h
    · exact ⟨i, List.mem_cons_self _ _, h⟩
    · obtain ⟨j, hj, hej⟩ := ih e h
      exact ⟨j, List.mem_cons_of_mem _ hj, hej⟩

/-- Every lookup made by `getNSRecords` is an NS lookup for a candidate of its
argument. -/
theorem getNSRecords_events (N : Net) (host : String) :
    ∀ e ∈ (getNSRecords N host).2,
      ∃ i < (Split host '.').length, e = Event.LookupNS (candidate host i) := by
  intro e he
  unfold getNSRecords at he
  by_cases hlab : (Split host '.').length > 10
  · simp [hlab] at he
  · simp only [hlab, if_false] at he
    obtain ⟨i, hi, hei⟩ := nsLoop_events N (Split host '.') _ e he
    exact ⟨i, List.mem_range.1 hi, hei⟩

/-- Every call made by the answer loop is a system-resolver address lookup for
the target of a CNAME record of the answer. -/
theorem answerLoop_events (N : Net) (publicIPs : List IP) (answer : List RR) :
    ∀ e ∈ (answerLoop N publicIPs answer).2,
      ∃ target, RR.CNAME target ∈ answer ∧ e = Event.LookupIP target := by
  induction answer with
  | nil => simp [answerLoop]
  | cons rr rest ih =>
    intro e he
    have lift : e ∈ (answerLoop N publicIPs rest).2 →
        ∃ target, RR.CNAME target ∈ rr :: rest ∧ e = Event.LookupIP target := by
      intro h
      obtain ⟨t, ht, het⟩ := ih e h
      exact ⟨t, List.mem_cons_of_mem _ ht, het⟩
    cases rr with
    | A a =>
      rw [answerLoop] at he
      by_cases hp : isPublic publicIPs a = true
      · simp [hp] at he
      · simp only [hp, Bool.false_eq_true, if_false] at he
        exact lift he
    | CNAME target =>
      rw [answerLoop] at he
      have hstep : e = Event.LookupIP target ∨ e ∈ (answerLoop N publicIPs rest).2 := by
        cases hl : N.LookupIP target with
        | none =>
          rw [hl] at he
          simpa using he
        | some ips =>
          rw [hl] at he
          by_cases hp : anyPublic publicIPs ips = true
          · simp only [hp, if_true, List.mem_singleton] at he
            exact Or.inl he
          · simp only [hp, Bool.false_eq_true, if_false, List.mem_cons] at he
            exact he
      rcases hstep with h | h
      · exact ⟨target, List.mem_cons_self _ _, h⟩
      · exact lift h
    | other =>
      rw [answerLoop] at he
      exact lift he

/-- Every call made by the nameserver loop is a direct query about the hostname
itself to a nameserver of the list, or a system-resolver address lookup for the
target of a CNAME record in the answer of such a query. -/
theorem queryLoop_events (N : Net) (publicIPs : List IP) (hostname : String)
    (nsRecords : List NS) :
    ∀ e ∈ (queryLoop N publicIPs hostname nsRecords).2,
      (∃ ns ∈ nsRecords, e = Event.Exchange (nsAddr ns) (N.Fqdn hostname)) ∨
      (∃ ns ∈ nsRecords, ∃ answer target,
        N.Exchange (nsAddr ns) (N.Fqdn hostname) = some answer ∧
        RR.CNAME target ∈ answer ∧ e = Event.LookupIP target) := by
  induction nsRecords with
  | nil => simp [queryLoop]
  | cons ns rest ih =>
    intro e he
    have lift : e ∈ (queryLoop N publicIPs hostname rest).2 →
        (∃ ns' ∈ ns :: rest, e = Event.Exchange (nsAddr ns') (N.Fqdn hostname)) ∨
        (∃ ns' ∈ ns :: rest, ∃ answer target,
          N.Exchange (nsAddr ns') (N.Fqdn hostname) = some answer ∧
          RR.CNAME target ∈ answer ∧ e = Event.LookupIP target) := by
      intro h
      rcases ih e h with ⟨n, hn, hen⟩ | ⟨n, hn, rest'⟩
      · exact Or.inl ⟨n, List.mem_cons_of_mem _ hn, hen⟩
      · exact Or.inr ⟨n, List.mem_cons_of_mem _ hn, rest'⟩
    rw [queryLoop] at he
    cases hx : N.Exchange (nsAddr ns) (N.Fqdn hostname) with
    | none =>
      rw [hx] at he
      simp only [List.mem_cons] at he
      rcases he with h | h
      · exact Or.inl ⟨ns, List.mem_cons_self _ _, h⟩
      · exact lift h
    | some answer =>
      rw [hx] at he
      have hstep : e = Event.Exchange (nsAddr ns) (N.Fqdn hostname) ∨
          e ∈ (answerLoop N publicIPs answer).2 ∨
          e ∈ (queryLoop N publicIPs hostname rest).2 := by
        by_cases ha : (answerLoop N publicIPs answer).1 = true
        · simp only [ha, if_true, List.mem_cons] at he
          rcases he with h | h
          · exact Or.inl h
          · exact Or.inr (Or.inl h)
        · simp only [ha, Bool.false_eq_true, if_false, List.mem_cons, List.mem_append] at he
          exact he
      rcases hstep with h | h | h
      · exact Or.inl ⟨ns, List.mem_cons_self _ _, h⟩
      · obtain ⟨t, ht, het⟩ := answerLoop_events N publicIPs answer e h
        exact Or.inr ⟨ns, List.mem_cons_self _ _, answer, t, hx, ht, het⟩
      · exact lift h


/-! ### Alias, failing nameserver, soundness -/

/-- C7: for a hostname that reaches the fast path (it is not an IP literal),
whose fast path finds no match and for which `getNSRecords` discovers a
nameserver whose direct answer holds a CNAME record whose target the system
resolver resolves to an IPv4 address that is `Equal` to a registry member,
`PreCheck` returns `nil`.  The alias is followed one level only: every call
made is the fast-path address lookup for the hostname, an NS lookup for a
candidate of the hostname, a direct query about the hostname itself to a
discovered nameserver, or a system-resolver address lookup for a CNAME target
taken from such a direct answer; no NS lookup and no direct query is made on
behalf of a target. -/
theorem PreCheck_cname (N : Net) (publicIPs : List IP) (hostname : String)
    (nsRecords : List NS) (ns : NS) (answer : List RR) (target : String)
    (ips : List IP) (ip pubIP : IP)
    (hlit : N.ParseIP hostname = none)
    (hfast : fastPath N publicIPs hostname = false)
    (hns : (getNSRecords N hostname).1 = Except.ok nsRecords) (hmem : ns ∈ nsRecords)
    (hx : N.Exchange (nsAddr ns) (N.Fqdn hostname) = some answer)
    (hc : RR.CNAME target ∈ answer)
    (hl : N.LookupIP target = some ips) (hin : ip ∈ ips) (h4 : (To4 ip).isSome = true)
    (hpub : pubIP ∈ publicIPs) (heq : Equal pubIP ip = true) :
    (PreCheck N publicIPs hostname).1 = none ∧
    ∀ e ∈ (PreCheck N publicIPs hostname).2,
      e = Event.LookupIP hostname ∨
      (∃ i < (Split hostname '.').length, e = Event.LookupNS (candidate hostname i)) ∨
      (∃ ns' ∈ nsRecords, e = Event.Exchange (nsAddr ns') (N.Fqdn hostname)) ∨
      (∃ ns' ∈ nsRecords, ∃ answer' target',
        N.Exchange (nsAddr ns') (N.Fqdn hostname) = some answer' ∧
        RR.CNAME target' ∈ answer' ∧ e = Event.LookupIP target') := by
  constructor
  · apply PreCheck_of_answer N publicIPs hostname nsRecords ns answer hlit hfast hns hmem hx
    rw [answerLoop_eq_true_iff]
    exact Or.inr ⟨target, ips, hc, hl,
      (anyPublic_eq_true_iff publicIPs ips).2 ⟨ip, hin, h4, pubIP, hpub, heq⟩⟩
  · intro e he
    rw [PreCheck_slow N publicIPs hostname nsRecords hlit hfast hns] at he
    simp only [List.mem_cons, List.mem_append] at he
    rcases he with h | h | h
    · exact Or.inl h
    · exact Or.inr (Or.inl (getNSRecords_events N hostname e h))
    · exact Or.inr (Or.inr (queryLoop_events N publicIPs hostname nsRecords e h))

/-- C7, witness: `alias.example.org`, whose nameserver answers with a CNAME to
`target.example.net.`, which the system resolver resolves to 127.0.0.1. -/
theorem PreCheck_cname_witness :
    (PreCheck testNet testPublicIPs "alias.example.org").1 = none ∧
    (PreCheck testNet testPublicIPs "alias.example.org").2 =
      [Event.LookupIP "alias.example.org", Event.LookupNS "alias.example.org",
        Event.LookupNS "example.org",
        Event.Exchange "ns1.example.org:53" "alias.example.org.",
        Event.LookupIP "target.example.net."] :=
  ⟨(PreCheck_cname testNet testPublicIPs "alias.example.org"
      [⟨"ns1.example.org."⟩, ⟨"ns2.example.org."⟩] ⟨"ns1.example.org."⟩
      [RR.other, RR.CNAME "target.example.net."] "target.example.net."
      [IPv4 127 0 0 1] (IPv4 127 0 0 1) (IPv4 127 0 0 1)
      (by decide) (by decide) rfl (by decide) (by decide) (by decide) (by decide)
      (by decide) (by decide) (by decide) (by decide)).1,
    by decide⟩

/-- When time is left out (a query that `N.Exchange` answers is a query answered
in time): a nameserver anywhere in the discovered list whose answer holds an A
record with an address `Equal` to a registry member makes `PreCheck` return
`nil`, whatever the outcome of the queries to the nameservers before it. -/
theorem PreCheck_received_answer (N : Net) (publicIPs : List IP) (hostname : String)
    (hlit : N.ParseIP hostname = none)
    (hfast : fastPath N publicIPs hostname = false) :
    (∀ (ns1 ns2 : NS) (rest : List NS) (answer : List RR) (a pubIP : IP),
      (getNSRecords N hostname).1 = Except.ok (ns1 :: ns2 :: rest) →
      N.Exchange (nsAddr ns1) (N.Fqdn hostname) = none →
      N.Exchange (nsAddr ns2) (N.Fqdn hostname) = some answer →
      RR.A a ∈ answer → pubIP ∈ publicIPs → Equal pubIP a = true →
      (PreCheck N publicIPs hostname).1 = none) ∧
    (∀ (pre : List NS) (ns : NS) (post : List NS) (answer : List RR) (a pubIP : IP),
      (getNSRecords N hostname).1 = Except.ok (pre ++ ns :: post) →
      N.Exchange (nsAddr ns) (N.Fqdn hostname) = some answer →
      RR.A a ∈ answer → pubIP ∈ publicIPs → Equal pubIP a = true →
      (PreCheck N publicIPs hostname).1 = none) := by
  have key : ∀ (nsRecords : List NS) (ns : NS) (answer : List RR) (a pubIP : IP),
      (getNSRecords N hostname).1 = Except.ok nsRecords → ns ∈ nsRecords →
      N.Exchange (nsAddr ns) (N.Fqdn hostname) = some answer →
      RR.A a ∈ answer → pubIP ∈ publicIPs → Equal pubIP a = true →
      (PreCheck N publicIPs hostname).1 = none := by
    intro nsRecords ns answer a pubIP hns hmem hx ha hpub heq
    apply PreCheck_of_answer N publicIPs hostname nsRecords ns answer hlit hfast hns hmem hx
    rw [answerLoop_eq_true_iff]
    exact Or.inl ⟨a, ha, (isPublic_eq_true_iff publicIPs a).2 ⟨pubIP, hpub, heq⟩⟩
  constructor
  · intro ns1 ns2 rest answer a pubIP hns _ hx ha hpub heq
    exact key _ ns2 answer a pubIP hns (by simp) hx ha hpub heq
  · intro pre ns post answer a pubIP hns hx ha hpub heq
    exact key _ ns answer a pubIP hns (by simp) hx ha hpub heq

/-- C9: if `PreCheck` returns `nil`, some registry member is `Equal` to
(a) an IPv4 address in the system resolver's answer for the hostname, or
(b) the address of an A record in the direct answer of a discovered nameserver,
or (c) an IPv4 address in the system resolver's answer for the target of a
CNAME record in such a direct answer.  In particular, with an empty registry
`PreCheck` never returns `nil`. -/
theorem PreCheck_allowed_sound (N : Net) (publicIPs : List IP) (hostname : String) :
    ((PreCheck N publicIPs hostname).1 = none →
      (∃ ips ip pubIP, N.LookupIP hostname = some ips ∧ ip ∈ ips ∧
        (To4 ip).isSome = true ∧ pubIP ∈ publicIPs ∧ Equal pubIP ip = true) ∨
      (∃ nsRecords ns answer a pubIP,
        (getNSRecords N hostname).1 = Except.ok nsRecords ∧ ns ∈ nsRecords ∧
        N.Exchange (nsAddr ns) (N.Fqdn hostname) = some answer ∧ RR.A a ∈ answer ∧
        pubIP ∈ publicIPs ∧ Equal pubIP a = true) ∨
      (∃ nsRecords ns answer target ips ip pubIP,
        (getNSRecords N hostname).1 = Except.ok nsRecords ∧ ns ∈ nsRecords ∧
        N.Exchange (nsAddr ns) (N.Fqdn hostname) = some answer ∧
        RR.CNAME target ∈ answer ∧ N.LookupIP target = some ips ∧ ip ∈ ips ∧
        (To4 ip).isSome = true ∧ pubIP ∈ publicIPs ∧ Equal pubIP ip = true)) ∧
    (publicIPs = [] → (PreCheck N publicIPs hostname).1 ≠ none) := by
  have main : (PreCheck N publicIPs hostname).1 = none →
      (∃ ips ip pubIP, N.LookupIP hostname = some ips ∧ ip ∈ ips ∧
        (To4 ip).isSome = true ∧ pubIP ∈ publicIPs ∧ Equal pubIP ip = true) ∨
      (∃ nsRecords ns answer a pubIP,
        (getNSRecords N hostname).1 = Except.ok nsRecords ∧ ns ∈ nsRecords ∧
        N.Exchange (nsAddr ns) (N.Fqdn hostname) = some answer ∧ RR.A a ∈ answer ∧
        pubIP ∈ publicIPs ∧ Equal pubIP a = true) ∨
      (∃ nsRecords ns answer target ips ip pubIP,
        (getNSRecords N hostname).1 = Except.ok nsRecords ∧ ns ∈ nsRecords ∧
        N.Exchange (nsAddr ns) (N.Fqdn hostname) = some answer ∧
        RR.CNAME target ∈ answer ∧ N.LookupIP target = some ips ∧ ip ∈ ips ∧
        (To4 ip).isSome = true ∧ pubIP ∈ publicIPs ∧ Equal pubIP ip = true) := by
    intro hnil
    cases hlit : N.ParseIP hostname with
    | some x =>
      rw [PreCheck_literal_ErrIP N publicIPs hostname (by rw [hlit]; simp)] at hnil
      exact absurd hnil (by simp)
    | none =>
      cases hfast : fastPath N publicIPs hostname with
      | true =>
        unfold fastPath at hfast
        cases hl : N.LookupIP hostname with
        | none => simp [hl] at hfast
        | some ips =>
          rw [hl] at hfast
          obtain ⟨ip, hin, h4, pubIP, hpub, heq⟩ := (anyPublic_eq_true_iff publicIPs ips).1 hfast
          exact Or.inl ⟨ips, ip, pubIP, rfl, hin, h4, hpub, heq⟩
      | false =>
        cases hns : (getNSRecords N hostname).1 with
        | error err =>
          rw [PreCheck_slow_error N publicIPs hostname err hlit hfast hns] at hnil
          exact absurd hnil (by simp)
        | ok nsRecords =>
          rw [PreCheck_slow N publicIPs hostname nsRecords hlit hfast hns] at hnil
          have hq : (queryLoop N publicIPs hostname nsRecords).1 = true := by
            by_contra hq
            simp [hq] at hnil
          obtain ⟨ns, hmem, answer, hx, ha⟩ :=
            (queryLoop_eq_true_iff N publicIPs hostname nsRecords).1 hq
          rcases (answerLoop_eq_true_iff N publicIPs answer).1 ha with
            ⟨a, hin, hp⟩ | ⟨target, ips, hin, hl, hany⟩
          · obtain ⟨pubIP, hpub, heq⟩ := (isPublic_eq_true_iff publicIPs a).1 hp
            exact Or.inr (Or.inl ⟨nsRecords, ns, answer, a, pubIP, rfl, hmem, hx, hin, hpub, heq⟩)
          · obtain ⟨ip, hip, h4, pubIP, hpub, heq⟩ := (anyPublic_eq_true_iff publicIPs ips).1 hany
            exact Or.inr (Or.inr ⟨nsRecords, ns, answer, target, ips, ip, pubIP, rfl, hmem, hx,
              hin, hl, hip, h4, hpub, heq⟩)
  refine ⟨main, ?_⟩
  intro hempty hnil
  subst hempty
  rcases main hnil with ⟨_, _, pubIP, _, _, _, hpub, _⟩ | ⟨_, _, _, _, pubIP, _, _, _, _, hpub, _⟩ |
    ⟨_, _, _, _, _, _, pubIP, _, _, _, _, _, _, _, hpub, _⟩
  · exact absurd hpub (List.not_mem_nil _)
  · exact absurd hpub (List.not_mem_nil _)
  · exact absurd hpub (List.not_mem_nil _)

/-- C9, witness: `foo.localtest.me` is allowed with registry `127.0.0.1`, and
source (a) holds; with an empty registry it is denied. -/
theorem PreCheck_allowed_sound_witness :
    ((PreCheck testNet testPublicIPs "foo.localtest.me").1 = none ∧
      ((∃ ips ip pubIP, testNet.LookupIP "foo.localtest.me" = some ips ∧ ip ∈ ips ∧
        (To4 ip).isSome = true ∧ pubIP ∈ testPublicIPs ∧ Equal pubIP ip = true) ∨
      (∃ nsRecords ns answer a pubIP,
        (getNSRecords testNet "foo.localtest.me").1 = Except.ok nsRecords ∧ ns ∈ nsRecords ∧
        testNet.Exchange (nsAddr ns) (testNet.Fqdn "foo.localtest.me") = some answer ∧
        RR.A a ∈ answer ∧ pubIP ∈ testPublicIPs ∧ Equal pubIP a = true) ∨
      (∃ nsRecords ns answer target ips ip pubIP,
        (getNSRecords testNet "foo.localtest.me").1 = Except.ok nsRecords ∧ ns ∈ nsRecords ∧
        testNet.Exchange (nsAddr ns) (testNet.Fqdn "foo.localtest.me") = some answer ∧
        RR.CNAME target ∈ answer ∧ testNet.LookupIP target = some ips ∧ ip ∈ ips ∧
        (To4 ip).isSome = true ∧ pubIP ∈ testPublicIPs ∧ Equal pubIP ip = true))) ∧
    (PreCheck testNet [] "foo.localtest.me").1 ≠ none :=
  ⟨⟨by decide, (PreCheck_allowed_sound testNet testPublicIPs "foo.localtest.me").1 (by decide)⟩,
    (PreCheck_allowed_sound testNet [] "foo.localtest.me").2 rfl⟩


/-! ### The shared deadline -/

theorem ExchangeContext_in_time (N : Net) (cost : Event → Nat) (elapsed : Nat)
    (addr qname : String) (h : elapsed + cost (Event.Exchange addr qname) < timeout) :
    ExchangeContext N cost elapsed addr qname =
      (N.Exchange addr qname, elapsed + cost (Event.Exchange addr qname)) := by
  simp [ExchangeContext, h]

/-- A direct query started when the deadline has expired fails, and the time does
not move. -/
theorem ExchangeContext_expired (N : Net) (cost : Event → Nat) (elapsed : Nat)
    (addr qname : String) (h : timeout ≤ elapsed) :
    ExchangeContext N cost elapsed addr qname = (none, elapsed) := by
  have h1 : ¬ elapsed + cost (Event.Exchange addr qname) < timeout := by omega
  simp [ExchangeContext, h1, h]

/-- Once the deadline has expired the nameserver loop finds nothing, whatever the
remaining nameservers would answer. -/
theorem queryLoopTimed_expired (N : Net) (cost : Event → Nat) (publicIPs : List IP)
    (hostname : String) (nsRecords : List NS) (elapsed : Nat) (h : timeout ≤ elapsed) :
    queryLoopTimed N cost publicIPs hostname nsRecords elapsed = (false, elapsed) := by
  induction nsRecords with
  | nil => rfl
  | cons ns rest ih =>
    rw [queryLoopTimed, ExchangeContext_expired N cost elapsed _ _ h]
    exact ih

/-- An A record with a registry address makes the answer loop return `nil`, at
whatever time it starts. -/
theorem answerLoopTimed_of_A (N : Net) (cost : Event → Nat) (publicIPs : List IP)
    (answer : List RR) (a : IP) (hin : RR.A a ∈ answer) (hp : isPublic publicIPs a = true) :
    ∀ elapsed, (answerLoopTimed N cost publicIPs answer elapsed).1 = true := by
  induction answer with
  | nil => exact absurd hin (List.not_mem_nil _)
  | cons rr rest ih =>
    intro elapsed
    have hrest : rr ≠ RR.A a → ∀ t, (answerLoopTimed N cost publicIPs rest t).1 = true := by
      intro hne
      rcases List.mem_cons.1 hin with h | h
      · exact absurd h.symm hne
      · exact ih h
    cases rr with
    | A b =>
      rw [answerLoopTimed]
      by_cases hb : isPublic publicIPs b = true
      · simp [hb]
      · have hne : RR.A b ≠ RR.A a := by
          intro h
          simp only [RR.A.injEq] at h
          subst h
          exact hb hp
        simp only [hb, Bool.false_eq_true, if_false]
        exact hrest hne elapsed
    | CNAME target =>
      rw [answerLoopTimed]
      have hne : RR.CNAME target ≠ RR.A a := by simp
      cases hl : N.LookupIP target with
      | none => exact hrest hne _
      | some ips =>
        by_cases hany : anyPublic publicIPs ips = true
        · simp [hany]
        · simp only [hany, Bool.false_eq_true, if_false]
          exact hrest hne _
    | other =>
      rw [answerLoopTimed]
      exact hrest (by simp) elapsed

/-- A nameserver whose query, issued when the loop has gone through the
nameservers before it, is answered before the deadline with an answer on which
the answer loop succeeds, makes the nameserver loop return `nil`. -/
theorem queryLoopTimed_hit (N : Net) (cost : Event → Nat) (publicIPs : List IP)
    (hostname : String) (ns : NS) (post : List NS) (answer : List RR)
    (ha : ∀ t, (answerLoopTimed N cost publicIPs answer t).1 = true) :
    ∀ (pre : List NS) (elapsed : Nat),
      (ExchangeContext N cost (queryLoopTimed N cost publicIPs hostname pre elapsed).2
        (nsAddr ns) (N.Fqdn hostname)).1 = some answer →
      (queryLoopTimed N cost publicIPs hostname (pre ++ ns :: post) elapsed).1 = true := by
  intro pre
  induction pre with
  | nil =>
    intro elapsed hx
    simp only [queryLoopTimed] at hx
    rw [List.nil_append, queryLoopTimed, hx]
    simp [ha]
  | cons p pre ih =>
    intro elapsed hx
    rw [queryLoopTimed] at hx
    rw [List.cons_append, queryLoopTimed]
    cases hp : (ExchangeContext N cost elapsed (nsAddr p) (N.Fqdn hostname)).1 with
    | none =>
      rw [hp] at hx
      exact ih _ hx
    | some ans =>
      rw [hp] at hx
      by_cases hm : (answerLoopTimed N cost publicIPs ans
          (ExchangeContext N cost elapsed (nsAddr p) (N.Fqdn hostname)).2).1 = true
      · simp [hm]
      · simp only [hm, Bool.false_eq_true, if_false] at hx ⊢
        exact ih _ hx

theorem PreCheckTimed_slow (N : Net) (cost : Event → Nat) (publicIPs : List IP)
    (hostname : String) (nsRecords : List NS)
    (hlit : N.ParseIP hostname = none) (hfast : fastPath N publicIPs hostname = false)
    (hns : (getNSRecords N hostname).1 = Except.ok nsRecords) :
    PreCheckTimed N cost publicIPs hostname =
      if (queryLoopTimed N cost publicIPs hostname nsRecords
          (slowPathStart N cost hostname)).1 then none
      else some Error.ErrNotUs := by
  unfold PreCheckTimed
  rw [hlit, hfast, hns]
  simp

/-- When no call takes any time, `PreCheckTimed` returns what `PreCheck`
returns. -/
theorem PreCheckTimed_zero_cost (N : Net) (publicIPs : List IP) (hostname : String) :
    PreCheckTimed N (fun _ => 0) publicIPs hostname = (PreCheck N publicIPs hostname).1 := by
  have hans : ∀ (answer : List RR) (t : Nat),
      answerLoopTimed N (fun _ => 0) publicIPs answer t =
        ((answerLoop N publicIPs answer).1, t) := by
    intro answer
    induction answer with
    | nil => intro t; rfl
    | cons rr rest ih =>
      intro t
      cases rr with
      | A a =>
        rw [answerLoopTimed, answerLoop]
        by_cases hp : isPublic publicIPs a = true
        · simp [hp]
        · simp only [hp, Bool.false_eq_true, if_false]
          exact ih t
      | CNAME target =>
        rw [answerLoopTimed, answerLoop]
        cases hl : N.LookupIP target with
        | none => simpa using ih t
        | some ips =>
          by_cases hany : anyPublic publicIPs ips = true
          · simp [hany]
          · simp only [hany, Bool.false_eq_true, if_false]
            simpa using ih t
      | other =>
        rw [answerLoopTimed, answerLoop]
        exact ih t
  have hq : ∀ nsRecords : List NS,
      queryLoopTimed N (fun _ => 0) publicIPs hostname nsRecords 0 =
        ((queryLoop N publicIPs hostname nsRecords).1, 0) := by
    intro nsRecords
    induction nsRecords with
    | nil => rfl
    | cons ns rest ih =>
      rw [queryLoopTimed, queryLoop,
        ExchangeContext_in_time N (fun _ => 0) 0 _ _ (by simp [timeout])]
      cases hx : N.Exchange (nsAddr ns) (N.Fqdn hostname) with
      | none => simpa using ih
      | some answer =>
        simp only [hans, Nat.add_zero]
        by_cases hm : (answerLoop N publicIPs answer).1 = true
        · simp [hm]
        · simp only [hm, Bool.false_eq_true, if_false]
          exact ih
  have hstart : slowPathStart N (fun _ => 0) hostname = 0 := by
    simp [slowPathStart]
  cases hlit : N.ParseIP hostname with
  | some ip =>
    rw [PreCheck_literal_ErrIP N publicIPs hostname (by simp [hlit])]
    simp [PreCheckTimed, hlit]
  | none =>
    cases hfast : fastPath N publicIPs hostname with
    | true => simp [PreCheckTimed, PreCheck, hlit, hfast]
    | false =>
      cases hns : (getNSRecords N hostname).1 with
      | error err =>
        rw [PreCheck_slow_error N publicIPs hostname err hlit hfast hns]
        simp [PreCheckTimed, hlit, hfast, hns]
      | ok nsRecords =>
        rw [PreCheck_slow N publicIPs hostname nsRecords hlit hfast hns,
          PreCheckTimed_slow N _ publicIPs hostname nsRecords hlit hfast hns, hstart, hq]


/-- C8 (as amended): for a hostname that reaches the fast path (it is not an IP
literal) and whose fast path finds no match: (1) if the discovered list starts
with a nameserver whose direct query fails, followed by one whose direct query
ends before the shared 5 second deadline with an answer that holds an A record
with an address `Equal` to a registry member, `PreCheck` returns `nil`;
(2) more generally, a nameserver anywhere in the discovered list makes
`PreCheck` return `nil` when its direct query, issued once the loop has gone
through the nameservers before it, ends before the shared deadline with such an
answer, whatever the outcome of the earlier queries, failures included. -/
theorem PreCheckTimed_later_nameserver (N : Net) (cost : Event → Nat)
    (publicIPs : List IP) (hostname : String)
    (hlit : N.ParseIP hostname = none)
    (hfast : fastPath N publicIPs hostname = false) :
    (∀ (ns1 ns2 : NS) (rest : List NS) (answer : List RR) (a pubIP : IP),
      (getNSRecords N hostname).1 = Except.ok (ns1 :: ns2 :: rest) →
      (ExchangeContext N cost (slowPathStart N cost hostname)
        (nsAddr ns1) (N.Fqdn hostname)).1 = none →
      (ExchangeContext N cost (slowPathStart N cost hostname)
          (nsAddr ns1) (N.Fqdn hostname)).2 +
        cost (Event.Exchange (nsAddr ns2) (N.Fqdn hostname)) < timeout →
      N.Exchange (nsAddr ns2) (N.Fqdn hostname) = some answer →
      RR.A a ∈ answer → pubIP ∈ publicIPs → Equal pubIP a = true →
      PreCheckTimed N cost publicIPs hostname = none) ∧
    (∀ (pre : List NS) (ns : NS) (post : List NS) (answer : List RR) (a pubIP : IP),
      (getNSRecords N hostname).1 = Except.ok (pre ++ ns :: post) →
      (queryLoopTimed N cost publicIPs hostname pre (slowPathStart N cost hostname)).2 +
        cost (Event.Exchange (nsAddr ns) (N.Fqdn hostname)) < timeout →
      N.Exchange (nsAddr ns) (N.Fqdn hostname) = some answer →
      RR.A a ∈ answer → pubIP ∈ publicIPs → Equal pubIP a = true →
      PreCheckTimed N cost publicIPs hostname = none) := by
  have general : ∀ (pre : List NS) (ns : NS) (post : List NS) (answer : List RR)
      (a pubIP : IP),
      (getNSRecords N hostname).1 = Except.ok (pre ++ ns :: post) →
      (queryLoopTimed N cost publicIPs hostname pre (slowPathStart N cost hostname)).2 +
        cost (Event.Exchange (nsAddr ns) (N.Fqdn hostname)) < timeout →
      N.Exchange (nsAddr ns) (N.Fqdn hostname) = some answer →
      RR.A a ∈ answer → pubIP ∈ publicIPs → Equal pubIP a = true →
      PreCheckTimed N cost publicIPs hostname = none := by
    intro pre ns post answer a pubIP hns htime hx ha hpub heq
    rw [PreCheckTimed_slow N cost publicIPs hostname _ hlit hfast hns]
    have hp : isPublic publicIPs a = true :=
      (isPublic_eq_true_iff publicIPs a).2 ⟨pubIP, hpub, heq⟩
    have hq := queryLoopTimed_hit N cost publicIPs hostname ns post answer
      (answerLoopTimed_of_A N cost publicIPs answer a ha hp) pre
      (slowPathStart N cost hostname)
      (by rw [ExchangeContext_in_time N cost _ _ _ htime]; exact hx)
    simp [hq]
  refine ⟨?_, general⟩
  intro ns1 ns2 rest answer a pubIP hns hfail htime hx ha hpub heq
  refine general [ns1] ns2 rest answer a pubIP hns ?_ hx ha hpub heq
  have hpre : queryLoopTimed N cost publicIPs hostname [ns1] (slowPathStart N cost hostname) =
      (false, (ExchangeContext N cost (slowPathStart N cost hostname)
        (nsAddr ns1) (N.Fqdn hostname)).2) := by
    rw [queryLoopTimed, hfail]
    rfl
  rw [hpre]
  exact htime

/-- C8, witness of the amended statement: `www.example.org`; the query to
`ns1.example.org` fails after 2 seconds and `ns2.example.org` then answers in
time with the A record 127.0.0.1. -/
theorem PreCheckTimed_later_nameserver_witness :
    (ExchangeContext testNet testCost (slowPathStart testNet testCost "www.example.org")
      "ns1.example.org:53" "www.example.org.") = (none, 2060) ∧
    PreCheckTimed testNet testCost testPublicIPs "www.example.org" = none :=
  ⟨by decide,
    (PreCheckTimed_later_nameserver testNet testCost testPublicIPs "www.example.org"
      (by decide) (by decide)).1
      ⟨"ns1.example.org."⟩ ⟨"ns2.example.org."⟩ [] [RR.A [127, 0, 0, 1]] [127, 0, 0, 1]
      (IPv4 127 0 0 1) rfl (by decide) (by decide) (by decide) (by decide) (by decide)
      (by decide)⟩

/-- C8, counterexample to the statement as written: for `www.example.net` the
fast path finds no match and four nameservers are discovered; the fourth answers
with the A record 127.0.0.1, which is in the registry, but the queries to the
three silent nameservers before it fail only after 2 seconds each and use up
the 5 seconds of the context, so the fourth query fails as well and `PreCheck`
returns `ErrNotUs`.  With the same answers and the failures taking 20
milliseconds, `PreCheck` returns `nil`. -/
theorem PreCheckTimed_later_nameserver_counterexample :
    silentNet.ParseIP "www.example.net" = none ∧
    fastPath silentNet testPublicIPs "www.example.net" = false ∧
    (getNSRecords silentNet "www.example.net").1 =
      Except.ok [⟨"ns1.example.net."⟩, ⟨"ns2.example.net."⟩, ⟨"ns3.example.net."⟩,
        ⟨"ns4.example.net."⟩] ∧
    silentNet.Exchange "ns1.example.net:53" "www.example.net." = none ∧
    silentNet.Exchange "ns2.example.net:53" "www.example.net." = none ∧
    silentNet.Exchange "ns3.example.net:53" "www.example.net." = none ∧
    silentNet.Exchange "ns4.example.net:53" "www.example.net." = some [RR.A [127, 0, 0, 1]] ∧
    isPublic testPublicIPs [127, 0, 0, 1] = true ∧
    PreCheckTimed silentNet silentCost testPublicIPs "www.example.net" =
      some Error.ErrNotUs ∧
    PreCheckTimed silentNet (fun _ => 20) testPublicIPs "www.example.net" = none :=
  ⟨by decide, by decide, rfl, by decide, by decide, by decide, by decide, by decide,
    by decide, by decide⟩

end Redirectname
